import Mathlib

/-!
Verification development for the Vec3 module (src/src/vec3.rs).

The Rust source defines a generic vector `Vec3<T: Float>` with constructors
`new`, `splat`, `From<(U, U, U)>` and operations `length`, `dot`, `normalize`
(the test suite additionally exercises `cross`, whose definition is not in
the visible source and is therefore modelled from the spec).

IEEE-754 binary floating point is shallow-embedded as exact rational values
together with the special values NaN and plus/minus infinity.  Arithmetic is
exact rational arithmetic followed by round-to-nearest, ties-to-even at the
format's precision, with gradual underflow (the minimum unbiased exponent of
an ulp is a format parameter) and overflow to infinity past the largest
finite value.  Two idealisations are made, both noted where relevant: all
NaN payloads are identified as the single value `Fl.nan`, and the sign of
zero is not tracked (`Fl.fin 0` stands for both IEEE zeros).  Neither claim
below depends on NaN payloads or on the sign of zero.
-/

set_option maxRecDepth 100000

/-- Floating-point values of any binary format: NaN, the two infinities, or a
finite value given by the exact rational it denotes. -/
inductive Fl : Type
  | nan : Fl
  | inf : Fl
  | neginf : Fl
  | fin : ℚ → Fl
  deriving DecidableEq

/-- Format parameters of a binary floating-point type: precision in bits,
the least ulp exponent (−149 for f32, −1074 for f64), and the largest finite
value. -/
structure FpFmt : Type where
  prec : ℕ
  kmin : ℤ
  maxFin : ℚ
  deriving DecidableEq

/-- Fuel-driven floor of the base-2 logarithm of a natural number (the fuel
argument strictly decreases, making the recursion structural and hence
kernel-reducible). -/
def log2floorAux : ℕ → ℕ → ℕ
  | 0, _ => 0
  | f + 1, n => if n ≤ 1 then 0 else log2floorAux f (n / 2) + 1

/-- Floor of the base-2 logarithm of a positive natural number. -/
def log2floor (n : ℕ) : ℕ := log2floorAux n n

/-- Ceiling of the base-2 logarithm of a positive natural number. -/
def clog2 (n : ℕ) : ℕ := if n ≤ 1 then 0 else log2floor (n - 1) + 1

/-- Powers of two as rationals, with integer exponent. -/
def pow2 (k : ℤ) : ℚ :=
  if 0 ≤ k then ((2 ^ k.toNat : ℕ) : ℚ) else 1 / ((2 ^ (-k).toNat : ℕ) : ℚ)

/-- Floor of the base-2 logarithm of a positive rational. -/
def ratLog2 (q : ℚ) : ℤ :=
  if 1 ≤ q then (log2floor (⌊q⌋).toNat : ℤ) else -(clog2 (⌈q⁻¹⌉).toNat : ℤ)

/-- Round a rational to the nearest integer, ties to even. -/
def rni (m : ℚ) : ℤ :=
  let f := ⌊m⌋
  let r := m - (f : ℚ)
  if r < 1 / 2 then f
  else if (1 / 2 : ℚ) < r then f + 1
  else if f % 2 = 0 then f else f + 1

/-- Round a positive rational to the floating format: nearest representable,
ties to even, overflowing to infinity past the largest finite value. -/
def rndPos (fmt : FpFmt) (q : ℚ) : Fl :=
  let e := ratLog2 q
  let k := max (e - ((fmt.prec : ℤ) - 1)) fmt.kmin
  let n := rni (q * pow2 (-k))
  let r := (n : ℚ) * pow2 k
  if fmt.maxFin < r then Fl.inf else Fl.fin r

/-- Negation of a floating value (exact; sign of zero is not tracked). -/
def Fl.neg : Fl → Fl
  | Fl.nan => Fl.nan
  | Fl.inf => Fl.neginf
  | Fl.neginf => Fl.inf
  | Fl.fin q => Fl.fin (-q)

/-- Round an arbitrary rational to the floating format (IEEE round to
nearest, ties to even), by sign symmetry from `rndPos`. -/
def rnd (fmt : FpFmt) (q : ℚ) : Fl :=
  if q = 0 then Fl.fin 0
  else if q < 0 then Fl.neg (rndPos fmt (-q))
  else rndPos fmt q

/-- Fuel-driven integer Newton iteration for the floor square root, starting
from a guess and decreasing until the fixpoint. -/
def isqrtAux : ℕ → ℕ → ℕ → ℕ
  | 0, _, x => x
  | f + 1, n, x =>
    let y := (x + n / x) / 2
    if y < x then isqrtAux f n y else x

/-- Floor of the square root of a natural number. -/
def isqrt (n : ℕ) : ℕ := if n ≤ 1 then n else isqrtAux n n n

/-- Correctly rounded (nearest, ties to even) square root of a positive
rational at the floating format, as a rational.  The candidate ulp exponent
comes from halving the input's exponent; the round decision compares the
exact input against the squares of the midpoint candidates, using only
integer arithmetic. -/
def sqrtPos (fmt : FpFmt) (q : ℚ) : ℚ :=
  let e := ratLog2 q
  let eres := Int.fdiv e 2
  let k := max (eres - ((fmt.prec : ℤ) - 1)) fmt.kmin
  let r := q * pow2 (-(2 * k))
  let a := r.num.toNat
  let b := r.den
  let s := isqrt (a * b)
  let nf := s / b
  let n : ℕ :=
    if b * (2 * nf + 1) * (2 * nf + 1) < 4 * a then nf + 1
    else if 4 * a < b * (2 * nf + 1) * (2 * nf + 1) then nf
    else if nf % 2 = 0 then nf else nf + 1
  (n : ℚ) * pow2 k

/-- IEEE addition on the embedded floating values. -/
def Fl.add (fmt : FpFmt) : Fl → Fl → Fl
  | Fl.nan, _ => Fl.nan
  | _, Fl.nan => Fl.nan
  | Fl.inf, Fl.neginf => Fl.nan
  | Fl.neginf, Fl.inf => Fl.nan
  | Fl.inf, _ => Fl.inf
  | _, Fl.inf => Fl.inf
  | Fl.neginf, _ => Fl.neginf
  | _, Fl.neginf => Fl.neginf
  | Fl.fin a, Fl.fin b => rnd fmt (a + b)

/-- IEEE multiplication on the embedded floating values. -/
def Fl.mul (fmt : FpFmt) : Fl → Fl → Fl
  | Fl.nan, _ => Fl.nan
  | _, Fl.nan => Fl.nan
  | Fl.inf, Fl.inf => Fl.inf
  | Fl.inf, Fl.neginf => Fl.neginf
  | Fl.neginf, Fl.inf => Fl.neginf
  | Fl.neginf, Fl.neginf => Fl.inf
  | Fl.inf, Fl.fin q => if q = 0 then Fl.nan else if q < 0 then Fl.neginf else Fl.inf
  | Fl.fin q, Fl.inf => if q = 0 then Fl.nan else if q < 0 then Fl.neginf else Fl.inf
  | Fl.neginf, Fl.fin q => if q = 0 then Fl.nan else if q < 0 then Fl.inf else Fl.neginf
  | Fl.fin q, Fl.neginf => if q = 0 then Fl.nan else if q < 0 then Fl.inf else Fl.neginf
  | Fl.fin a, Fl.fin b => rnd fmt (a * b)

/-- IEEE subtraction: addition of the exact negation. -/
def Fl.sub (fmt : FpFmt) (x y : Fl) : Fl := Fl.add fmt x (Fl.neg y)

/-- IEEE division on the embedded floating values (sign of zero is not
tracked, so a finite value divided by an infinity is the single zero). -/
def Fl.div (fmt : FpFmt) : Fl → Fl → Fl
  | Fl.nan, _ => Fl.nan
  | _, Fl.nan => Fl.nan
  | Fl.inf, Fl.inf => Fl.nan
  | Fl.inf, Fl.neginf => Fl.nan
  | Fl.neginf, Fl.inf => Fl.nan
  | Fl.neginf, Fl.neginf => Fl.nan
  | Fl.inf, Fl.fin q => if q < 0 then Fl.neginf else Fl.inf
  | Fl.neginf, Fl.fin q => if q < 0 then Fl.inf else Fl.neginf
  | Fl.fin _, Fl.inf => Fl.fin 0
  | Fl.fin _, Fl.neginf => Fl.fin 0
  | Fl.fin a, Fl.fin b =>
    if b = 0 then (if a = 0 then Fl.nan else if a < 0 then Fl.neginf else Fl.inf)
    else rnd fmt (a / b)

/-- IEEE strict less-than: NaN is unordered, so any comparison with it is
false. -/
def Fl.lt : Fl → Fl → Bool
  | Fl.nan, _ => false
  | _, Fl.nan => false
  | Fl.neginf, Fl.neginf => false
  | Fl.neginf, _ => true
  | _, Fl.neginf => false
  | Fl.inf, _ => false
  | Fl.fin _, Fl.inf => true
  | Fl.fin a, Fl.fin b => decide (a < b)

/-- IEEE less-or-equal: NaN is unordered, so any comparison with it is
false. -/
def Fl.le : Fl → Fl → Bool
  | Fl.nan, _ => false
  | _, Fl.nan => false
  | Fl.neginf, _ => true
  | _, Fl.neginf => false
  | _, Fl.inf => true
  | Fl.inf, Fl.fin _ => false
  | Fl.fin a, Fl.fin b => decide (a ≤ b)

/-- IEEE square root: NaN for NaN and for negative arguments, infinity for
positive infinity, and the correctly rounded root for positive finite
arguments. -/
def Fl.sqrt (fmt : FpFmt) : Fl → Fl
  | Fl.nan => Fl.nan
  | Fl.neginf => Fl.nan
  | Fl.inf => Fl.inf
  | Fl.fin q =>
    if q < 0 then Fl.nan
    else if q = 0 then Fl.fin 0
    else
      let r := sqrtPos fmt q
      if fmt.maxFin < r then Fl.inf else Fl.fin r

/-- Absolute value of a floating value (exact). -/
def Fl.abs : Fl → Fl
  | Fl.nan => Fl.nan
  | Fl.inf => Fl.inf
  | Fl.neginf => Fl.inf
  | Fl.fin q => Fl.fin |q|

/-- The floating zero, `T::zero()` of the num-traits `Float` bound. -/
def Fl.zero : Fl := Fl.fin 0

/-- The floating one, `T::one()` of the num-traits `Float` bound. -/
def Fl.one : Fl := Fl.fin 1

/-- The IEEE binary32 format (Rust `f32`): 24 bits of precision, least ulp
exponent −149, largest finite value `(2^24 − 1) · 2^104`. -/
def f32fmt : FpFmt := ⟨24, -149, (16777215 : ℚ) * pow2 104⟩

/-- The IEEE binary64 format (Rust `f64`): 53 bits of precision, least ulp
exponent −1074, largest finite value `(2^53 − 1) · 2^971`. -/
def f64fmt : FpFmt := ⟨53, -1074, (9007199254740991 : ℚ) * pow2 971⟩

/-- The vector type of src/src/vec3.rs: a record with three fields `x`, `y`,
`z` of the generic element type. -/
structure Vec3 (α : Type) : Type where
  x : α
  y : α
  z : α
  deriving DecidableEq

/-- The `Vec3::new` constructor: all three fields are `T::default()`, which
is positive zero for the floating element types. -/
def Vec3.new : Vec3 Fl := ⟨Fl.zero, Fl.zero, Fl.zero⟩

/-- The `Vec3::splat` constructor: each of the three fields is the checked
numeric cast `NumCast::from(val)` of the same scalar; `.unwrap()` panics when
the cast returns no value, modelled as `none` (so no instance is produced).
A successful result carries the same converted value in all three fields. -/
def Vec3.splat (cast : α → Option β) (val : α) : Option (Vec3 β) := do
  let x ← cast val
  let y ← cast val
  let z ← cast val
  pure ⟨x, y, z⟩

/-- The `From<(U, U, U)>` conversion: each tuple component is independently
checked-cast to the element type, `.unwrap()` modelled as `none` (so a failed
component conversion produces no instance at all). -/
def vec3FromTuple (cast : α → Option β) (t : α × α × α) : Option (Vec3 β) := do
  let x ← cast t.1
  let y ← cast t.2.1
  let z ← cast t.2.2
  pure ⟨x, y, z⟩

/-- The `Vec3::length` method: `(x*x + y*y + z*z).sqrt()`, with the source's
left-to-right association of the two additions. -/
def Vec3.length (fmt : FpFmt) (v : Vec3 Fl) : Fl :=
  Fl.sqrt fmt (Fl.add fmt (Fl.add fmt (Fl.mul fmt v.x v.x) (Fl.mul fmt v.y v.y)) (Fl.mul fmt v.z v.z))

/-- The `Vec3::dot` method: `x1*x2 + y1*y2 + z1*z2`, left-associated as in
the source. -/
def Vec3.dot (fmt : FpFmt) (a b : Vec3 Fl) : Fl :=
  Fl.add fmt (Fl.add fmt (Fl.mul fmt a.x b.x) (Fl.mul fmt a.y b.y)) (Fl.mul fmt a.z b.z)

/-- The `Vec3::normalize` method: if the squared length `self.dot(self)` is
strictly greater than `T::zero()`, scale each component by
`T::one() / len_sq.sqrt()`; otherwise rebuild the vector from its own
components (returning it unchanged). -/
def Vec3.normalize (fmt : FpFmt) (v : Vec3 Fl) : Vec3 Fl :=
  let len_sq := Vec3.dot fmt v v
  if Fl.lt Fl.zero len_sq then
    let inv := Fl.div fmt Fl.one (Fl.sqrt fmt len_sq)
    ⟨Fl.mul fmt v.x inv, Fl.mul fmt v.y inv, Fl.mul fmt v.z inv⟩
  else
    ⟨v.x, v.y, v.z⟩

/-- Modelled from the spec: the `Vec3::cross` method is called by the test
suite of src/src/vec3.rs but its definition is not in the visible source
(the spec flags this in its sections 4.4 and 9), so it is written from the
spec's formula: `(a.y*b.z - a.z*b.y, a.z*b.x - a.x*b.z, a.x*b.y - a.y*b.x)`. -/
def Vec3.cross (fmt : FpFmt) (a b : Vec3 Fl) : Vec3 Fl :=
  ⟨Fl.sub fmt (Fl.mul fmt a.y b.z) (Fl.mul fmt a.z b.y),
   Fl.sub fmt (Fl.mul fmt a.z b.x) (Fl.mul fmt a.x b.z),
   Fl.sub fmt (Fl.mul fmt a.x b.y) (Fl.mul fmt a.y b.x)⟩

/-- Modelled from the spec: the checked numeric cast between the two floating
widths used by the constructors lives in the num-traits dependency, not in
src.  Widening f32 to f64 is value-preserving (every binary32 value,
including NaN and the infinities, is exactly representable in binary64) and
never fails. -/
def castF32toF64 : Fl → Option Fl := fun x => some x

/-- Modelled from the spec: narrowing f64 to f32 rounds finite values to the
nearest binary32 value (overflowing past the largest finite binary32 value
to infinity), preserves NaN and the infinities, and never fails. -/
def castF64toF32 : Fl → Option Fl
  | Fl.nan => some Fl.nan
  | Fl.inf => some Fl.inf
  | Fl.neginf => some Fl.neginf
  | Fl.fin q => some (rnd f32fmt q)

/-- Modelled from the spec: casting an integer to a floating target rounds
it to the target format and never fails (failure is reserved for casts with
an integer target type). -/
def castIntToF32 : ℤ → Option Fl := fun n => some (rnd f32fmt (n : ℚ))

/-- Modelled from the spec: the checked integer-to-integer cast to an
unsigned 16-bit target (the spec's example of a failing construction) fails
exactly when the source value is out of the target range. -/
def castIntToU16 : ℤ → Option ℤ :=
  fun n => if 0 ≤ n ∧ n < 65536 then some n else none

/-- Modelled from the spec: the checked float-to-integer cast to a signed
32-bit target truncates toward zero and fails on NaN, the infinities, and
values whose truncation exceeds the target range. -/
def castF32toI32 : Fl → Option ℤ
  | Fl.nan => none
  | Fl.inf => none
  | Fl.neginf => none
  | Fl.fin q =>
    let t : ℤ := if q < 0 then ⌈q⌉ else ⌊q⌋
    if -2147483648 ≤ t ∧ t ≤ 2147483647 then some t else none

/-- The vector record over the real numbers, for the ideal exact-arithmetic
reading of the spec. -/
structure Vec3R : Type where
  x : ℝ
  y : ℝ
  z : ℝ

/-- Ideal exact-arithmetic dot product, following the spec's formula
`x1*x2 + y1*y2 + z1*z2`. -/
def dotR (a b : Vec3R) : ℝ := a.x * b.x + a.y * b.y + a.z * b.z

/-- Ideal exact-arithmetic length, following the spec's formula
`sqrt(x*x + y*y + z*z)`. -/
noncomputable def lengthR (a : Vec3R) : ℝ := Real.sqrt (a.x * a.x + a.y * a.y + a.z * a.z)

/-- Ideal exact-arithmetic normalize, following the spec's words: when the
squared length is strictly positive, scale each component by the reciprocal
square root of the squared length; otherwise return the input unchanged. -/
noncomputable def normalizeR (a : Vec3R) : Vec3R :=
  if 0 < dotR a a then
    ⟨a.x * (1 / Real.sqrt (dotR a a)),
     a.y * (1 / Real.sqrt (dotR a a)),
     a.z * (1 / Real.sqrt (dotR a a))⟩
  else a

example : rnd f32fmt 1 = Fl.fin 1 := by with_unfolding_all rfl
example : rnd f32fmt (1 / 7) = Fl.fin (9586981 / 67108864) := by with_unfolding_all rfl
example : rnd f32fmt (2 ^ 128) = Fl.inf := by with_unfolding_all rfl
example : Fl.sqrt f32fmt (Fl.fin 25) = Fl.fin 5 := by with_unfolding_all rfl
example : Fl.sqrt f32fmt (Fl.fin 49) = Fl.fin 7 := by with_unfolding_all rfl
example : Fl.sqrt f32fmt (Fl.fin 2) = Fl.fin (11863283 / 8388608) := by with_unfolding_all rfl

example : Vec3.length f32fmt ⟨Fl.fin 3, Fl.fin 4, Fl.fin 0⟩ = Fl.fin 5 := by
  with_unfolding_all rfl
example : Vec3.length f32fmt ⟨Fl.fin 2, Fl.fin 3, Fl.fin 6⟩ = Fl.fin 7 := by
  with_unfolding_all rfl
example : Vec3.dot f32fmt ⟨Fl.fin 1, Fl.fin 2, Fl.fin 3⟩ ⟨Fl.fin 4, Fl.fin 5, Fl.fin 6⟩ = Fl.fin 32 := by
  with_unfolding_all rfl
example : Vec3.normalize f32fmt ⟨Fl.fin 3, Fl.fin 4, Fl.fin 0⟩ =
    ⟨Fl.fin (10066330 / 16777216), Fl.fin (13421773 / 16777216), Fl.fin 0⟩ := by
  with_unfolding_all rfl
example : Vec3.length f32fmt (Vec3.normalize f32fmt ⟨Fl.fin 3, Fl.fin 4, Fl.fin 0⟩) = Fl.fin 1 := by
  with_unfolding_all rfl
example : Vec3.cross f32fmt ⟨Fl.fin 1, Fl.fin 2, Fl.fin 3⟩ ⟨Fl.fin 4, Fl.fin 5, Fl.fin 6⟩ =
    ⟨Fl.fin (-3), Fl.fin 6, Fl.fin (-3)⟩ := by
  with_unfolding_all rfl

theorem Fl.neg_neg (x : Fl) : x.neg.neg = x := by
  cases x <;> simp [Fl.neg]

theorem rnd_neg (fmt : FpFmt) (q : ℚ) : rnd fmt (-q) = (rnd fmt q).neg := by
  rcases lt_trichotomy q 0 with h | h | h
  · have h1 : ¬(-q = 0) := neg_ne_zero.mpr (ne_of_lt h)
    have h2 : ¬(-q < 0) := not_lt.mpr (le_of_lt (neg_pos.mpr h))
    simp only [rnd, if_neg h1, if_neg h2, if_neg (ne_of_lt h), if_pos h, Fl.neg_neg]
  · subst h
    simp [rnd, Fl.neg]
  · have h1 : ¬(q = 0) := ne_of_gt h
    have h2 : ¬(q < 0) := not_lt.mpr (le_of_lt h)
    have h3 : ¬(-q = 0) := neg_ne_zero.mpr h1
    have h4 : -q < 0 := neg_lt_zero.mpr h
    simp only [rnd, if_neg h3, if_pos h4, if_neg h1, if_neg h2, neg_neg]

theorem Fl.mul_comm_fl (fmt : FpFmt) (x y : Fl) : Fl.mul fmt x y = Fl.mul fmt y x := by
  cases x <;> cases y <;> simp [Fl.mul, mul_comm]

theorem Fl.sub_antisym (fmt : FpFmt) (x y : Fl) : Fl.sub fmt x y = (Fl.sub fmt y x).neg := by
  cases x <;> cases y <;> try rfl
  rename_i a b
  show rnd fmt (a + -b) = (rnd fmt (b + -a)).neg
  rw [show a + -b = -(b + -a) by ring, rnd_neg]

theorem Fl.add_nan_left (fmt : FpFmt) (y : Fl) : Fl.add fmt Fl.nan y = Fl.nan := by
  cases y <;> rfl

theorem Fl.add_nan_right (fmt : FpFmt) (x : Fl) : Fl.add fmt x Fl.nan = Fl.nan := by
  cases x <;> rfl

theorem Fl.mul_nan_left (fmt : FpFmt) (y : Fl) : Fl.mul fmt Fl.nan y = Fl.nan := by
  cases y <;> rfl

theorem Fl.mul_nan_right (fmt : FpFmt) (x : Fl) : Fl.mul fmt x Fl.nan = Fl.nan := by
  cases x <;> rfl

/-- A floating value that is a nonnegative finite value, positive infinity,
or NaN (i.e. anything except a negative finite value or negative infinity). -/
def nonnegOrNan : Fl → Prop
  | Fl.nan => True
  | Fl.inf => True
  | Fl.neginf => False
  | Fl.fin q => 0 ≤ q

theorem pow2_pos (k : ℤ) : 0 < pow2 k := by
  unfold pow2
  split
  · exact_mod_cast pow_pos (by norm_num : (0:ℕ) < 2) _
  · have : (0:ℚ) < ((2 ^ (-k).toNat : ℕ) : ℚ) :=
      by exact_mod_cast pow_pos (by norm_num : (0:ℕ) < 2) _
    positivity

theorem rni_nonneg (m : ℚ) (h : 0 ≤ m) : 0 ≤ rni m := by
  have hf : (0:ℤ) ≤ ⌊m⌋ := Int.floor_nonneg.mpr h
  unfold rni
  dsimp only
  split
  · exact hf
  · split
    · omega
    · split
      · exact hf
      · omega

theorem rndPos_nn (fmt : FpFmt) (q : ℚ) (h : 0 ≤ q) : nonnegOrNan (rndPos fmt q) := by
  unfold rndPos
  dsimp only
  split
  · trivial
  · show (0:ℚ) ≤ _
    have hn : (0:ℤ) ≤ rni (q * pow2 (-max (ratLog2 q - ((fmt.prec : ℤ) - 1)) fmt.kmin)) :=
      rni_nonneg _ (mul_nonneg h (le_of_lt (pow2_pos _)))
    exact mul_nonneg (by exact_mod_cast hn) (le_of_lt (pow2_pos _))

theorem rnd_nn (fmt : FpFmt) (q : ℚ) (h : 0 ≤ q) : nonnegOrNan (rnd fmt q) := by
  unfold rnd
  split
  · exact le_rfl
  · split
    · exact absurd ‹q < 0› (not_lt.mpr h)
    · exact rndPos_nn fmt q h

theorem sq_nn (fmt : FpFmt) (x : Fl) : nonnegOrNan (Fl.mul fmt x x) := by
  cases x with
  | nan => trivial
  | inf => trivial
  | neginf => trivial
  | fin q => exact rnd_nn fmt _ (mul_self_nonneg q)

theorem add_nn (fmt : FpFmt) (x y : Fl) (hx : nonnegOrNan x) (hy : nonnegOrNan y) :
    nonnegOrNan (Fl.add fmt x y) := by
  cases x <;> cases y <;> try trivial
  all_goals first
    | exact hx.elim
    | exact hy.elim
    | exact rnd_nn fmt _ (add_nonneg hx hy)

theorem dot_self_nn (fmt : FpFmt) (v : Vec3 Fl) : nonnegOrNan (Vec3.dot fmt v v) :=
  add_nn fmt _ _ (add_nn fmt _ _ (sq_nn fmt v.x) (sq_nn fmt v.y)) (sq_nn fmt v.z)

theorem dot_self_nan (fmt : FpFmt) (v : Vec3 Fl)
    (h : v.x = Fl.nan ∨ v.y = Fl.nan ∨ v.z = Fl.nan) : Vec3.dot fmt v v = Fl.nan := by
  rcases h with h | h | h
  · simp [Vec3.dot, h, Fl.mul_nan_left, Fl.add_nan_left]
  · simp [Vec3.dot, h, Fl.mul_nan_left, Fl.add_nan_left, Fl.add_nan_right]
  · simp [Vec3.dot, h, Fl.mul_nan_left, Fl.add_nan_right]

theorem Vec3.normalize_eq (fmt : FpFmt) (v : Vec3 Fl) :
    Vec3.normalize fmt v =
      if Fl.lt Fl.zero (Vec3.dot fmt v v) then
        ⟨Fl.mul fmt v.x (Fl.div fmt Fl.one (Fl.sqrt fmt (Vec3.dot fmt v v))),
         Fl.mul fmt v.y (Fl.div fmt Fl.one (Fl.sqrt fmt (Vec3.dot fmt v v))),
         Fl.mul fmt v.z (Fl.div fmt Fl.one (Fl.sqrt fmt (Vec3.dot fmt v v)))⟩
      else v := rfl

theorem length_eq_sqrt_dot (fmt : FpFmt) (v : Vec3 Fl) :
    Vec3.length fmt v = Fl.sqrt fmt (Vec3.dot fmt v v) := rfl

theorem mul_zero_fl (fmt : FpFmt) : Fl.mul fmt (Fl.fin 0) (Fl.fin 0) = Fl.fin 0 := by
  show rnd fmt (0 * 0) = Fl.fin 0
  norm_num [rnd]

theorem add_zero_fl (fmt : FpFmt) : Fl.add fmt (Fl.fin 0) (Fl.fin 0) = Fl.fin 0 := by
  show rnd fmt (0 + 0) = Fl.fin 0
  norm_num [rnd]

theorem dot_zero_vec (fmt : FpFmt) :
    Vec3.dot fmt ⟨Fl.fin 0, Fl.fin 0, Fl.fin 0⟩ ⟨Fl.fin 0, Fl.fin 0, Fl.fin 0⟩ = Fl.fin 0 := by
  simp [Vec3.dot, mul_zero_fl, add_zero_fl]

theorem normalize_zero_vec (fmt : FpFmt) :
    Vec3.normalize fmt ⟨Fl.fin 0, Fl.fin 0, Fl.fin 0⟩ = ⟨Fl.fin 0, Fl.fin 0, Fl.fin 0⟩ := by
  rw [Vec3.normalize_eq, dot_zero_vec]
  norm_num [Fl.lt, Fl.zero]

theorem normalizeR_unit (v : Vec3R) (h : 0 < dotR v v) : lengthR (normalizeR v) = 1 := by
  have hs : 0 ≤ dotR v v := le_of_lt h
  have hsq : Real.sqrt (dotR v v) ≠ 0 := ne_of_gt (Real.sqrt_pos.mpr h)
  have hmul : Real.sqrt (dotR v v) * Real.sqrt (dotR v v) = dotR v v := Real.mul_self_sqrt hs
  unfold normalizeR
  rw [if_pos h]
  unfold lengthR
  dsimp only
  have key : v.x * (1 / Real.sqrt (dotR v v)) * (v.x * (1 / Real.sqrt (dotR v v))) +
      v.y * (1 / Real.sqrt (dotR v v)) * (v.y * (1 / Real.sqrt (dotR v v))) +
      v.z * (1 / Real.sqrt (dotR v v)) * (v.z * (1 / Real.sqrt (dotR v v))) = 1 := by
    field_simp
    unfold dotR
    ring
  rw [key, Real.sqrt_one]

/-- C1 counterexample: over f32, the vector `(2^64, 2^64, 0)` has computed
squared length `+inf` (the products overflow), which is non-zero, yet
`normalize` returns the zero vector and the result's `length()` is `0`, not
within `1e-6` of `1`.  This refutes the claim as stated. -/
theorem c1_counterexample :
    Vec3.dot f32fmt ⟨Fl.fin (2 ^ 64), Fl.fin (2 ^ 64), Fl.fin 0⟩
      ⟨Fl.fin (2 ^ 64), Fl.fin (2 ^ 64), Fl.fin 0⟩ = Fl.inf ∧
    Fl.inf ≠ Fl.fin 0 ∧
    Vec3.normalize f32fmt ⟨Fl.fin (2 ^ 64), Fl.fin (2 ^ 64), Fl.fin 0⟩ =
      ⟨Fl.fin 0, Fl.fin 0, Fl.fin 0⟩ ∧
    Vec3.length f32fmt (Vec3.normalize f32fmt ⟨Fl.fin (2 ^ 64), Fl.fin (2 ^ 64), Fl.fin 0⟩) =
      Fl.fin 0 ∧
    Fl.lt (Fl.abs (Fl.sub f32fmt
        (Vec3.length f32fmt (Vec3.normalize f32fmt ⟨Fl.fin (2 ^ 64), Fl.fin (2 ^ 64), Fl.fin 0⟩))
        Fl.one))
      (Fl.fin (1 / 1000000)) = false := by
  refine ⟨by with_unfolding_all rfl, by simp, by with_unfolding_all rfl,
    by with_unfolding_all rfl, by with_unfolding_all rfl⟩

/-- C1 (amended): when the computed squared length is strictly positive and
the computation stays in range, normalize produces a unit vector: in exact
arithmetic the result's length is exactly 1 for every input with positive
squared length, and the f32 computation meets the `1e-6` tolerance on the
representative in-range inputs `(3,4,0)` and `(2,3,6)` exercised by the
tests. -/
theorem c1_normalize_unit_amended :
    (∀ v : Vec3R, 0 < dotR v v → lengthR (normalizeR v) = 1) ∧
    Fl.lt (Fl.abs (Fl.sub f32fmt
        (Vec3.length f32fmt (Vec3.normalize f32fmt ⟨Fl.fin 3, Fl.fin 4, Fl.fin 0⟩)) Fl.one))
      (Fl.fin (1 / 1000000)) = true ∧
    Fl.lt (Fl.abs (Fl.sub f32fmt
        (Vec3.length f32fmt (Vec3.normalize f32fmt ⟨Fl.fin 2, Fl.fin 3, Fl.fin 6⟩)) Fl.one))
      (Fl.fin (1 / 1000000)) = true :=
  ⟨fun v h => normalizeR_unit v h, by with_unfolding_all rfl, by with_unfolding_all rfl⟩

/-- C1 witness: the amended theorem applied at the concrete input `(3,4,0)`,
whose squared length `25` is positive. -/
theorem c1_normalize_unit_amended_witness : lengthR (normalizeR ⟨3, 4, 0⟩) = 1 :=
  c1_normalize_unit_amended.1 ⟨3, 4, 0⟩ (by norm_num [dotR])

/-- C2: the cross operation (modelled from the spec, since its definition is
absent from the visible source) computes the standard 3D cross product
componentwise, and on f32 satisfies `(1,2,3)x(4,5,6) = (-3,6,-3)` as well as
the basis identities `i x j = k`, `j x k = i`, `k x i = j` exactly. -/
theorem c2_cross_standard :
    (∀ (fmt : FpFmt) (a b : Vec3 Fl),
      Vec3.cross fmt a b =
        ⟨Fl.sub fmt (Fl.mul fmt a.y b.z) (Fl.mul fmt a.z b.y),
         Fl.sub fmt (Fl.mul fmt a.z b.x) (Fl.mul fmt a.x b.z),
         Fl.sub fmt (Fl.mul fmt a.x b.y) (Fl.mul fmt a.y b.x)⟩) ∧
    Vec3.cross f32fmt ⟨Fl.fin 1, Fl.fin 2, Fl.fin 3⟩ ⟨Fl.fin 4, Fl.fin 5, Fl.fin 6⟩ =
      ⟨Fl.fin (-3), Fl.fin 6, Fl.fin (-3)⟩ ∧
    Vec3.cross f32fmt ⟨Fl.fin 1, Fl.fin 0, Fl.fin 0⟩ ⟨Fl.fin 0, Fl.fin 1, Fl.fin 0⟩ =
      ⟨Fl.fin 0, Fl.fin 0, Fl.fin 1⟩ ∧
    Vec3.cross f32fmt ⟨Fl.fin 0, Fl.fin 1, Fl.fin 0⟩ ⟨Fl.fin 0, Fl.fin 0, Fl.fin 1⟩ =
      ⟨Fl.fin 1, Fl.fin 0, Fl.fin 0⟩ ∧
    Vec3.cross f32fmt ⟨Fl.fin 0, Fl.fin 0, Fl.fin 1⟩ ⟨Fl.fin 1, Fl.fin 0, Fl.fin 0⟩ =
      ⟨Fl.fin 0, Fl.fin 1, Fl.fin 0⟩ :=
  ⟨fun fmt a b => rfl, by with_unfolding_all rfl, by with_unfolding_all rfl,
    by with_unfolding_all rfl, by with_unfolding_all rfl⟩

/-- C3: conversions between the floating widths (modelled from the spec,
since the checked casts live in the num-traits dependency) never fail in
either direction and preserve NaN and both infinities; only the casts with
an integer target type can fail. -/
theorem c3_float_conversions_total :
    (∀ x : Fl, (castF32toF64 x).isSome = true) ∧
    (∀ x : Fl, (castF64toF32 x).isSome = true) ∧
    (∀ n : ℤ, (castIntToF32 n).isSome = true) ∧
    castF32toF64 Fl.nan = some Fl.nan ∧
    castF32toF64 Fl.inf = some Fl.inf ∧
    castF32toF64 Fl.neginf = some Fl.neginf ∧
    castF64toF32 Fl.nan = some Fl.nan ∧
    castF64toF32 Fl.inf = some Fl.inf ∧
    castF64toF32 Fl.neginf = some Fl.neginf ∧
    castIntToU16 70000 = none ∧
    castIntToU16 (-1) = none ∧
    castF32toI32 Fl.nan = none ∧
    castF32toI32 Fl.inf = none ∧
    castF32toI32 Fl.neginf = none := by
  refine ⟨fun x => rfl, fun x => ?_, fun n => rfl, rfl, rfl, rfl, rfl, rfl, rfl,
    by decide, by decide, rfl, rfl, rfl⟩
  cases x <;> rfl

/-- C4: the dot product is commutative exactly: swapping the arguments swaps
each multiplication's operands, and floating multiplication is commutative
on values, so the computed results are identical. -/
theorem c4_dot_commutative (fmt : FpFmt) (v w : Vec3 Fl) :
    Vec3.dot fmt v w = Vec3.dot fmt w v := by
  unfold Vec3.dot
  rw [Fl.mul_comm_fl fmt v.x w.x, Fl.mul_comm_fl fmt v.y w.y, Fl.mul_comm_fl fmt v.z w.z]

/-- C5: normalize scales the vector componentwise by `1/sqrt(dot(self,self))`
when the squared length is strictly greater than zero and otherwise returns
the input unchanged; in particular the zero vector normalizes to itself. -/
theorem c5_normalize_branches (fmt : FpFmt) (v : Vec3 Fl) :
    Vec3.normalize fmt v =
      (if Fl.lt Fl.zero (Vec3.dot fmt v v) then
        ⟨Fl.mul fmt v.x (Fl.div fmt Fl.one (Fl.sqrt fmt (Vec3.dot fmt v v))),
         Fl.mul fmt v.y (Fl.div fmt Fl.one (Fl.sqrt fmt (Vec3.dot fmt v v))),
         Fl.mul fmt v.z (Fl.div fmt Fl.one (Fl.sqrt fmt (Vec3.dot fmt v v)))⟩
      else v) ∧
    Vec3.normalize fmt ⟨Fl.fin 0, Fl.fin 0, Fl.fin 0⟩ = ⟨Fl.fin 0, Fl.fin 0, Fl.fin 0⟩ :=
  ⟨Vec3.normalize_eq fmt v, normalize_zero_vec fmt⟩

/-- C6: the cross product (modelled from the spec, since its definition is
absent from the visible source) is anticommutative with exact componentwise
negation: each component of `cross(a,b)` is the exact negation of the
corresponding component of `cross(b,a)`. -/
theorem c6_cross_anticommutative (fmt : FpFmt) (a b : Vec3 Fl) :
    (Vec3.cross fmt a b).x = ((Vec3.cross fmt b a).x).neg ∧
    (Vec3.cross fmt a b).y = ((Vec3.cross fmt b a).y).neg ∧
    (Vec3.cross fmt a b).z = ((Vec3.cross fmt b a).z).neg := by
  refine ⟨?_, ?_, ?_⟩
  · show Fl.sub fmt (Fl.mul fmt a.y b.z) (Fl.mul fmt a.z b.y) =
      (Fl.sub fmt (Fl.mul fmt b.y a.z) (Fl.mul fmt b.z a.y)).neg
    rw [Fl.sub_antisym fmt, Fl.mul_comm_fl fmt a.z b.y, Fl.mul_comm_fl fmt a.y b.z]
  · show Fl.sub fmt (Fl.mul fmt a.z b.x) (Fl.mul fmt a.x b.z) =
      (Fl.sub fmt (Fl.mul fmt b.z a.x) (Fl.mul fmt b.x a.z)).neg
    rw [Fl.sub_antisym fmt, Fl.mul_comm_fl fmt a.x b.z, Fl.mul_comm_fl fmt a.z b.x]
  · show Fl.sub fmt (Fl.mul fmt a.x b.y) (Fl.mul fmt a.y b.x) =
      (Fl.sub fmt (Fl.mul fmt b.x a.y) (Fl.mul fmt b.y a.x)).neg
    rw [Fl.sub_antisym fmt, Fl.mul_comm_fl fmt a.y b.x, Fl.mul_comm_fl fmt a.x b.y]

/-- C7: construction by broadcast or tuple (with the checked casts modelled
from the spec) succeeds exactly when every component cast succeeds; on
success the fields are the converted values, and any failed cast yields no
instance at all (no partial construction). -/
theorem c7_construction_all_or_nothing {α β : Type} (cast : α → Option β) (a b c val : α) :
    ((vec3FromTuple cast (a, b, c)).isSome =
      ((cast a).isSome && (cast b).isSome && (cast c).isSome)) ∧
    (∀ x y z, cast a = some x → cast b = some y → cast c = some z →
      vec3FromTuple cast (a, b, c) = some ⟨x, y, z⟩) ∧
    (cast a = none → vec3FromTuple cast (a, b, c) = none) ∧
    (cast b = none → vec3FromTuple cast (a, b, c) = none) ∧
    (cast c = none → vec3FromTuple cast (a, b, c) = none) ∧
    ((Vec3.splat cast val).isSome = (cast val).isSome) ∧
    (∀ x, cast val = some x → Vec3.splat cast val = some ⟨x, x, x⟩) := by
  refine ⟨?_, ?_, ?_, ?_, ?_, ?_, ?_⟩
  · cases ha : cast a <;> cases hb : cast b <;> cases hc : cast c <;>
      simp [vec3FromTuple, ha, hb, hc]
  · intro x y z hx hy hz
    simp [vec3FromTuple, hx, hy, hz]
  · intro h
    simp [vec3FromTuple, h]
  · intro h
    cases ha : cast a <;> simp [vec3FromTuple, h, ha]
  · intro h
    cases ha : cast a <;> cases hb : cast b <;> simp [vec3FromTuple, h, ha, hb]
  · cases hv : cast val <;> simp [Vec3.splat, hv]
  · intro x hx
    simp [Vec3.splat, hx]

/-- C7 witness: the theorem applied to the integer-to-f32 cast at the tuple
`(1,2,3)` and the broadcast scalar `11`, with every cast hypothesis
discharged by evaluation. -/
theorem c7_witness :
    vec3FromTuple castIntToF32 ((1 : ℤ), (2 : ℤ), (3 : ℤ)) =
      some ⟨Fl.fin 1, Fl.fin 2, Fl.fin 3⟩ ∧
    Vec3.splat castIntToF32 (11 : ℤ) = some ⟨Fl.fin 11, Fl.fin 11, Fl.fin 11⟩ :=
  ⟨(c7_construction_all_or_nothing castIntToF32 1 2 3 11).2.1 (Fl.fin 1) (Fl.fin 2) (Fl.fin 3)
      (by with_unfolding_all rfl) (by with_unfolding_all rfl) (by with_unfolding_all rfl),
    (c7_construction_all_or_nothing castIntToF32 1 2 3 11).2.2.2.2.2.2 (Fl.fin 11)
      (by with_unfolding_all rfl)⟩

/-- C8: length computes `sqrt(x*x + y*y + z*z)` for every vector, is total by
construction, maps the zero vector to exactly zero, and propagates a NaN
component to a NaN result. -/
theorem c8_length_total (fmt : FpFmt) (v : Vec3 Fl) :
    Vec3.length fmt v =
      Fl.sqrt fmt (Fl.add fmt (Fl.add fmt (Fl.mul fmt v.x v.x) (Fl.mul fmt v.y v.y))
        (Fl.mul fmt v.z v.z)) ∧
    Vec3.length fmt ⟨Fl.fin 0, Fl.fin 0, Fl.fin 0⟩ = Fl.fin 0 ∧
    ((v.x = Fl.nan ∨ v.y = Fl.nan ∨ v.z = Fl.nan) → Vec3.length fmt v = Fl.nan) := by
  refine ⟨rfl, ?_, ?_⟩
  · rw [length_eq_sqrt_dot, dot_zero_vec]
    norm_num [Fl.sqrt]
  · intro h
    rw [length_eq_sqrt_dot, dot_self_nan fmt v h]
    rfl

/-- C8 witness: the theorem applied over f32 to a vector with NaN first
component. -/
theorem c8_witness : Vec3.length f32fmt ⟨Fl.nan, Fl.fin 0, Fl.fin 0⟩ = Fl.nan :=
  (c8_length_total f32fmt ⟨Fl.nan, Fl.fin 0, Fl.fin 0⟩).2.2 (Or.inl rfl)

/-- C9: a vector with a NaN component has NaN squared length, the strict
comparison with zero is false for NaN, and normalize takes the else branch,
returning the input unchanged. -/
theorem c9_normalize_nan_identity (fmt : FpFmt) (v : Vec3 Fl)
    (h : v.x = Fl.nan ∨ v.y = Fl.nan ∨ v.z = Fl.nan) :
    Vec3.normalize fmt v = v := by
  rw [Vec3.normalize_eq, dot_self_nan fmt v h]
  rfl

/-- C9 witness: the theorem applied over f32 to `(NaN, 1, 2)`. -/
theorem c9_witness :
    Vec3.normalize f32fmt ⟨Fl.nan, Fl.fin 1, Fl.fin 2⟩ = ⟨Fl.nan, Fl.fin 1, Fl.fin 2⟩ :=
  c9_normalize_nan_identity f32fmt ⟨Fl.nan, Fl.fin 1, Fl.fin 2⟩ (Or.inl rfl)

/-- C10: the squared length `dot(v,v)` is never less than zero — it is a
nonnegative finite value, positive infinity, or NaN, even for negative or
zero components — and the guard `len_sq > 0` is false exactly when the
computed squared length is zero or NaN. -/
theorem c10_dot_self_nonneg (fmt : FpFmt) (v : Vec3 Fl) :
    nonnegOrNan (Vec3.dot fmt v v) ∧
    (Fl.lt (Fl.fin 0) (Vec3.dot fmt v v) = false ↔
      (Vec3.dot fmt v v = Fl.fin 0 ∨ Vec3.dot fmt v v = Fl.nan)) := by
  have h := dot_self_nn fmt v
  refine ⟨h, ?_⟩
  cases hd : Vec3.dot fmt v v with
  | nan => simp [Fl.lt]
  | inf => simp [Fl.lt]
  | neginf =>
    rw [hd] at h
    exact h.elim
  | fin q =>
    rw [hd] at h
    have hq : (0:ℚ) ≤ q := h
    simp only [Fl.lt, decide_eq_false_iff_not, not_lt, Fl.fin.injEq]
    constructor
    · intro hle
      exact Or.inl (le_antisymm hle hq)
    · intro hor
      rcases hor with h0 | h0
      · exact le_of_eq h0
      · exact absurd h0 (by simp)
